import Mathlib

/-!
A shallow embedding of the `geozarr` repository (`src/geozarr/bilinear.py`,
`src/geozarr/dataset.py`, `src/geozarr/factory.py`) together with proofs
about the embedded operations.

Conventions of the embedding:
* Raster sample values (`bilinear.py`) are modelled as `ℤ`: the rasters the
  properties speak about have integral samples, for which the float
  computations of the source are exact at these magnitudes, so the weighted
  mean is modelled as an exact fraction and `np.round` as round-half-to-even
  on that fraction.  Integer-dtype range wrap-around on the final cast is
  outside the model.
* Scalar attribute and coordinate values (`dataset.py`) are modelled as `ℚ`.
* numpy arrays are modelled as total functions from indices to values plus an
  explicit shape; uninitialised (`np.empty`) contents are `none`.
* Python exceptions are modelled with `Except GeoErr`.
* The external collaborators (the `zarr` store and the `pyproj` geodesy
  service) are modelled as explicit state and as resolver functions supplied
  by the caller, following the repository spec's component boundaries.
-/

namespace GeoZarr

/-- Errors surfaced by the embedded operations.  Each constructor names the
condition in the vocabulary of the repository's spec; the comments record the
concrete Python exception that the source raises at that point. -/
inductive GeoErr where
  /-- `list.index(value)` raising `ValueError`: a named insert selector value
  is absent from its coordinate array. -/
  | indexNotFound
  /-- `int(...)` raising `ValueError` on a malformed `EPSG:` identifier. -/
  | invalidCRS
  /-- numpy raising `IndexError`: an out-of-bounds array access or write. -/
  | indexError
  /-- `np.average` raising `ZeroDivisionError` when some band's weights sum
  to zero. -/
  | zeroDivision
  /-- a resolved selection pattern outside the fragment modelled here. -/
  | unsupportedSelection
  deriving DecidableEq, Repr

/-! ## Overview generation (`bilinear.py`, `create_overview`) -/

/-- `np.round` applied to the exact mean `a / b` (with `b > 0`): round half
to even, computed on the integer pair. -/
def roundHalfEvenFrac (a b : ℤ) : ℤ :=
  let f := Int.fdiv a b
  let r := a - b * f
  if 2 * r < b then f
  else if b < 2 * r then f + 1
  else if f % 2 = 0 then f else f + 1

/-- Python `range(start, stop, step)` for positive `step`, as a list. -/
def pyRange (start stop step : Nat) : List Nat :=
  List.range' start ((stop - start + step - 1) / step) step

/-- The index positions of the numpy slice `image[row:row+2, col:col+2]` of an
array of spatial extents `h × w` (numpy clamps a slice at the array bound),
in row-major order. -/
def blockPositions (h w row col : Nat) : List (Nat × Nat) :=
  (List.range' row (min (row + 2) h - row)).flatMap fun r =>
    (List.range' col (min (col + 2) w - col)).map fun c => (r, c)

/-- The samples of one band `b` over the block positions `ps`. -/
def bandValues (image : Nat → Nat → Nat → ℤ) (ps : List (Nat × Nat)) (b : Nat) :
    List ℤ :=
  ps.map fun rc => image rc.1 rc.2 b

/-- `weight.sum()` for one band: each sample weighs `1` if it is `> 0`,
else `0`. -/
def weightSum (vals : List ℤ) : ℤ :=
  (vals.map fun v => if 0 < v then (1 : ℤ) else 0).sum

/-- The weighted sum of one band's samples under the `> 0` indicator
weights. -/
def weightedSum (vals : List ℤ) : ℤ :=
  (vals.map fun v => if 0 < v then v else 0).sum

/-- All samples of the block across every band (the flattened
`pixel_values`). -/
def allVals (image : Nat → Nat → Nat → ℤ) (ps : List (Nat × Nat)) (bands : Nat) :
    List ℤ :=
  ps.flatMap fun rc => (List.range bands).map fun b => image rc.1 rc.2 b

/-- `ndarray.max()` over a flattened list of samples (the lists we apply it to
are never empty). -/
def listMax : List ℤ → ℤ
  | [] => 0
  | x :: xs => xs.foldl max x

/-- The body of the source's loop for one output pixel: the per-band output
values computed from the 2×2 neighbourhood at `(row, col)`, or the error
`np.average` raises when the block's maximum is positive but some band's
weights sum to zero.  Mirrors `bilinear.py` lines 31–38. -/
def blockOutput (image : Nat → Nat → Nat → ℤ) (h w bands row col : Nat) :
    Except GeoErr (Nat → ℤ) :=
  let ps := blockPositions h w row col
  if 0 < listMax (allVals image ps bands) then
    if (List.range bands).all
        (fun b => decide (weightSum (bandValues image ps b) ≠ 0)) then
      .ok fun b =>
        roundHalfEvenFrac (weightedSum (bandValues image ps b))
          (weightSum (bandValues image ps b))
    else .error .zeroDivision
  else .ok fun _ => 0

/-- The inner `for col in range(start, image.shape[1], step)` loop: write each
block's averaged values at `zoom_image[row // step, col // step]`, failing
with `IndexError` when that write is out of bounds of the output shape
`H × W`. -/
def overviewCols (image : Nat → Nat → Nat → ℤ) (h w bands H W step row : Nat) :
    List Nat → (Nat → Nat → Nat → ℤ) → Except GeoErr (Nat → Nat → Nat → ℤ)
  | [], acc => .ok acc
  | col :: rest, acc =>
    match blockOutput image h w bands row col with
    | .error e => .error e
    | .ok av =>
      if row / step < H ∧ col / step < W then
        overviewCols image h w bands H W step row rest
          (fun r c b =>
            if r = row / step ∧ c = col / step ∧ b < bands then av b
            else acc r c b)
      else .error .indexError

/-- The outer `for row in range(start, image.shape[0], step)` loop. -/
def overviewRows (image : Nat → Nat → Nat → ℤ) (h w bands H W step : Nat) :
    List Nat → List Nat → (Nat → Nat → Nat → ℤ) →
      Except GeoErr (Nat → Nat → Nat → ℤ)
  | [], _, acc => .ok acc
  | row :: rest, cols, acc =>
    match overviewCols image h w bands H W step row cols acc with
    | .error e => .error e
    | .ok acc' => overviewRows image h w bands H W step rest cols acc'

/-- `create_overview(array_shape, array_type, content, zoom_level)` of
`bilinear.py`, for a rank-3 shape `(h, w, bands)`.  The byte buffer and dtype
are modelled by the value function `image`; the result is the output value
function together with its shape `(h // step, w // step, bands)`. -/
def createOverview (h w bands : Nat) (image : Nat → Nat → Nat → ℤ)
    (zoomLevel : Nat) :
    Except GeoErr ((Nat → Nat → Nat → ℤ) × Nat × Nat × Nat) :=
  let start := 2 ^ (zoomLevel - 1) - 1
  let step := 2 ^ zoomLevel
  let H := h / step
  let W := w / step
  match overviewRows image h w bands H W step (pyRange start h step)
      (pyRange start w step) (fun _ _ _ => 0) with
  | .error e => .error e
  | .ok out => .ok (out, H, W, bands)

/-- Projection of a `createOverview` result to the value of one output
sample, `none` when the call failed. -/
def outAt (e : Except GeoErr ((Nat → Nat → Nat → ℤ) × Nat × Nat × Nat))
    (r c b : Nat) : Option ℤ :=
  match e with
  | .error _ => none
  | .ok res => some (res.1 r c b)

/-- Decidable "every visited block evaluates without error" condition for a
`createOverview` run (always true for single-band input with divisible
extents). -/
def blocksOk (image : Nat → Nat → Nat → ℤ) (h w bands zoomLevel : Nat) : Bool :=
  let start := 2 ^ (zoomLevel - 1) - 1
  let step := 2 ^ zoomLevel
  (pyRange start h step).all fun row =>
    (pyRange start w step).all fun col =>
      match blockOutput image h w bands row col with
      | .ok _ => true
      | .error _ => false

/-- Projection of an `Except` result to its error, `none` on success. -/
def errOf {α : Type} (e : Except GeoErr α) : Option GeoErr :=
  match e with
  | .error x => some x
  | .ok _ => none

/-- The `[[0,5],[0,0]]` single-band raster of the spec's overview examples. -/
def overviewSampleA : Nat → Nat → Nat → ℤ :=
  fun r c _ => if r = 0 ∧ c = 1 then 5 else 0

/-- The all-zero raster of the spec's overview examples. -/
def overviewSampleZero : Nat → Nat → Nat → ℤ := fun _ _ _ => 0

/-- The `[[4,6],[2,8]]` single-band raster of the spec's overview examples. -/
def overviewSampleB : Nat → Nat → Nat → ℤ :=
  fun r c _ =>
    if r = 0 then (if c = 0 then 4 else 6) else (if c = 0 then 2 else 8)

/-! ## Schema construction (`dataset.py`, `GeoZarrDataset`)

The `zarr` store opened by `GeoZarrDataset.__init__` is modelled as explicit
state (`Store`), and the `pyproj` geodesy service as resolver functions
`resolveEpsg` / `resolveWkt` mapping a CRS identifier to the record of fields
the source reads off a `pyproj.CRS` object. -/

/-- The kinds of `DimensionType` in `dataset.py`. -/
inductive DimensionType where
  | DIMENSION_VALUE
  | COORDINATE_X
  | COORDINATE_Y
  | COORDINATE_Z
  deriving DecidableEq, Repr

/-- A scalar or list attribute value stored in a group's or array's
attribute mapping. -/
inductive AttrVal where
  | str (s : String)
  | num (q : ℚ)
  | strList (l : List String)
  deriving DecidableEq, Repr

/-- The fields the source reads off a resolved `pyproj.CRS` object.
`source_params` models `crs.source_crs.coordinate_operation.params` as
(name, value) pairs; `wkt` models `crs.to_wkt()`. -/
structure CRSInfo where
  is_projected : Bool
  /-- `crs.coordinate_operation.method_name` -/
  method_name : String
  /-- `crs.source_crs.coordinate_operation.params`, as (name, value) pairs -/
  source_params : List (String × ℚ)
  /-- `crs.datum.ellipsoid.inverse_flattening` -/
  inverse_flattening : ℚ
  /-- `crs.prime_meridian.longitude` -/
  prime_meridian_longitude : ℚ
  /-- `crs.ellipsoid.semi_major_metre` -/
  semi_major_metre : ℚ
  /-- `crs.ellipsoid.semi_minor_metre` -/
  semi_minor_metre : ℚ
  /-- `crs.ellipsoid.is_semi_minor_computed` -/
  is_semi_minor_computed : Bool
  /-- `crs.to_wkt()` -/
  wkt : String
  deriving Repr

/-- `str.lower()`, on the character list of the string. -/
def strLower (s : String) : String := ⟨s.data.map Char.toLower⟩

/-- `str.upper()`, on the character list of the string. -/
def strUpper (s : String) : String := ⟨s.data.map Char.toUpper⟩

/-- `str.startswith(p)`, on the character lists of the strings. -/
def strStartsWith (s p : String) : Bool := p.data.isPrefixOf s.data

/-- `s[n:]`, on the character list of the string. -/
def strDrop (s : String) (n : Nat) : String := ⟨s.data.drop n⟩

/-- The numeric value of a decimal digit character, `none` otherwise. -/
def charDigit? (c : Char) : Option Nat :=
  if 48 ≤ c.toNat ∧ c.toNat ≤ 57 then some (c.toNat - 48) else none

/-- Accumulating decimal reader over a character list. -/
def strToNatAux : List Char → Nat → Option Nat
  | [], acc => some acc
  | c :: cs, acc =>
    match charDigit? c with
    | none => none
    | some d => strToNatAux cs (acc * 10 + d)

/-- Python `int(s)` for the non-negative decimal strings the source feeds
it (`grid['crs'][5:]`): `none` models the `ValueError` on anything else. -/
def strToNat? (s : String) : Option Nat :=
  if s.data.isEmpty then none else strToNatAux s.data 0

/-- The `params` dictionary accumulated by `_transverse_mercator`'s loop over
the coordinate-operation parameters (`param_dict` dispatch by lower-cased
name; a later parameter with the same name overwrites). -/
structure TMParams where
  falseEast : Option ℚ := none
  falseNorth : Option ℚ := none
  scale : Option ℚ := none
  longOrigin : Option ℚ := none
  latOrigin : Option ℚ := none
  deriving Repr

/-- The loop of `_transverse_mercator` over
`crs.source_crs.coordinate_operation.params`. -/
def collectParams (ps : List (String × ℚ)) : TMParams :=
  ps.foldl
    (fun acc p =>
      match strLower p.1 with
      | "false easting" => { acc with falseEast := some p.2 }
      | "false northing" => { acc with falseNorth := some p.2 }
      | "scale factor at natural origin" => { acc with scale := some p.2 }
      | "longitude of natural origin" => { acc with longOrigin := some p.2 }
      | "latitude of natural origin" => { acc with latOrigin := some p.2 }
      | _ => acc)
    {}

/-- `_transverse_mercator(crs)` of `dataset.py` (lines 39–75): the
grid-mapping attribute dictionary for a Transverse Mercator CRS, in the
source's insertion order. -/
def transverseMercator (crs : CRSInfo) : List (String × AttrVal) :=
  let params := collectParams crs.source_params
  let attributes : List (String × AttrVal) :=
    [("grid_mapping_name", .str ("transverse_mercator")),
     ("inverse_flattening", .num crs.inverse_flattening),
     ("longitude_of_prime_meridian", .num crs.prime_meridian_longitude),
     ("false_easting", .num (params.falseEast.getD 0)),
     ("false_northing", .num (params.falseNorth.getD 0)),
     ("scale_factor_at_central_meridian", .num (params.scale.getD 1)),
     ("longitude_of_central_meridian", .num (params.longOrigin.getD 0)),
     ("latitude_of_projection_origin", .num (params.latOrigin.getD 0))]
  if crs.is_semi_minor_computed then
    attributes ++
      [("semi_major_axis", .num crs.semi_major_metre),
       ("semi_minor_axis", .num crs.semi_minor_metre)]
  else attributes

/-- First-match lookup in an attribute dictionary. -/
def lookupAttr (l : List (String × AttrVal)) (k : String) : Option AttrVal :=
  (l.find? fun p => p.1 = k).map fun p => p.2

/-- The `grid` entry of a schema: optional CRS specification string,
`upperLeft` origin pair, and `unitSize`. -/
structure Grid where
  crs : Option String
  upperLeft : ℚ × ℚ
  unitSize : ℚ
  deriving Repr

/-- The grid-mapping dictionary computed by the schema setter from the
`grid` entry (`dataset.py` lines 84–105): dispatch on absent CRS /
`EPSG:`-prefixed identifier / raw WKT, then append the projection origin
coordinates.  `resolveEpsg` and `resolveWkt` stand for `CRS.from_epsg` and
`CRS.from_wkt` of the external geodesy service. -/
def computeGridMapping (resolveEpsg : Nat → CRSInfo) (resolveWkt : String → CRSInfo)
    (grid : Grid) : Except GeoErr (List (String × AttrVal)) :=
  match grid.crs with
  | none =>
    let c := resolveEpsg 4326
    .ok ([("spatial_ref", .str c.wkt)] ++
      [("projection_x_coordinate", .num grid.upperLeft.1),
       ("projection_y_coordinate", .num grid.upperLeft.2)])
  | some s =>
    if strStartsWith s ("EPSG:") then
      match strToNat? (strDrop s 5) with
      | none => .error .invalidCRS
      | some code =>
        let c := resolveEpsg code
        .ok (((if c.is_projected &&
                (strUpper c.method_name == "TRANSVERSE MERCATOR") then
                  transverseMercator c
                else []) ++
              [("spatial_ref", .str c.wkt)]) ++
          [("projection_x_coordinate", .num grid.upperLeft.1),
           ("projection_y_coordinate", .num grid.upperLeft.2)])
    else
      let c := resolveWkt s
      .ok ((transverseMercator c ++ [("spatial_ref", .str s)]) ++
        [("projection_x_coordinate", .num grid.upperLeft.1),
         ("projection_y_coordinate", .num grid.upperLeft.2)])

/-- First-match lookup into an `Except`-wrapped grid mapping, `none` on
error. -/
def lookupGm (e : Except GeoErr (List (String × AttrVal))) (k : String) :
    Option AttrVal :=
  match e with
  | .error _ => none
  | .ok gm => lookupAttr gm k

/-- The stored contents of a numpy-backed array: its shape, and its values
flattened in row-major order (`none` for uninitialised `np.empty`
contents). -/
structure NpData where
  shape : List Nat
  vals : Option (List ℚ)
  deriving DecidableEq, Repr

/-- An array in the store: data plus attributes (chunk layout is not
modelled; no claim touches it). -/
structure ZArray where
  data : NpData
  attrs : List (String × AttrVal)
  deriving Repr

/-- The zarr group hierarchy the setter mutates: root attributes, created
group names, and created arrays keyed by their path below the root. -/
structure Store where
  rootAttrs : List (String × AttrVal)
  groups : List String
  arrays : List (String × ZArray)
  deriving Repr

/-- The store as first opened in create mode. -/
def emptyStore : Store := ⟨[], [], []⟩

/-- `create_dataset`: record an array under a path (fresh paths only in the
flows modelled; most recent entry wins on lookup). -/
def storeSetArray (s : Store) (path : String) (a : ZArray) : Store :=
  { s with arrays := (path, a) :: s.arrays }

/-- Python `dict.__setitem__`: overwrite in place if the key exists, else
append. -/
def dictSet (l : List (String × AttrVal)) (k : String) (v : AttrVal) :
    List (String × AttrVal) :=
  if l.any fun p => p.1 = k then
    l.map fun p => if p.1 = k then (k, v) else p
  else l ++ [(k, v)]

/-- Python `dict.update`: fold `dictSet` over the update mapping. -/
def attrsUpdate (l upd : List (String × AttrVal)) : List (String × AttrVal) :=
  upd.foldl (fun acc p => dictSet acc p.1 p.2) l

/-- One entry of a variable's `dimensions` list:
`(name, standard_name, units, dtype, kind)`. -/
structure DimSpec where
  name : String
  std : String
  units : String
  dtype : String
  kind : DimensionType
  deriving Repr

/-- One variable entry of a schema. -/
structure VarSpec where
  name : String
  attributes : List (String × AttrVal)
  shape : List Nat
  chunks : Option (List Nat)
  dtype : String
  dims : List DimSpec
  deriving Repr

/-- The schema mapping passed to the setter: the two special keys
`global_attributes` and `grid` (optional), and one entry per variable, in
insertion order. -/
structure Schema where
  global_attributes : Option (List (String × AttrVal))
  grid : Option Grid
  vars : List (String × VarSpec)
  deriving Repr

/-- The store-open mode of `GeoZarrDataset.__init__` (`'r'` or `'x'`). -/
inductive Mode where
  | r
  | x
  deriving DecidableEq, Repr

/-- The per-dimension loop of the schema setter (`dataset.py` lines
118–147): create each coordinate array, walking the variable's `shape` in
step (`shape_index`); a missing shape entry is numpy's `IndexError`.
`DIMENSION_VALUE` arrays are uninitialised placeholders; `COORDINATE_X`
arrays get `upperLeft[0] + unitSize * index` values when a grid is present;
every other kind (`COORDINATE_Y` and `COORDINATE_Z` alike, the source's
final `else`) gets `upperLeft[1] + unitSize * index` values when a grid is
present.  The generated 1-D array is passed to `create_dataset` inside a
one-element list, so the stored shape is `[1, n]`. -/
def buildDims (grid : Option Grid) (varName : String) :
    List DimSpec → List Nat → Store → Except GeoErr Store
  | [], _, store => .ok store
  | _ :: _, [], _ => .error .indexError
  | d :: ds, n :: ns, store =>
    let dat : NpData :=
      match d.kind with
      | .DIMENSION_VALUE => ⟨[n], none⟩
      | .COORDINATE_X =>
        match grid with
        | some g =>
          ⟨[1, n], some ((List.range n).map fun i => g.upperLeft.1 + g.unitSize * i)⟩
        | none => ⟨[1, n], none⟩
      | .COORDINATE_Y | .COORDINATE_Z =>
        match grid with
        | some g =>
          ⟨[1, n], some ((List.range n).map fun i => g.upperLeft.2 + g.unitSize * i)⟩
        | none => ⟨[1, n], none⟩
    let dimAttrs : List (String × AttrVal) :=
      [("_ARRAY_DIMENSION", .strList ["/" ++ varName ++ "/" ++ d.name]),
       ("standard_name", .str d.std),
       ("units", .str d.units)]
    buildDims grid varName ds ns
      (storeSetArray store (varName ++ "/" ++ d.name) ⟨dat, dimAttrs⟩)

/-- The per-variable body of the schema setter (`dataset.py` lines
110–156): patch the variable's attribute dictionary with
`_ARRAY_DIMENSIONS` (and `grid_mapping` when a grid is present), create the
group, the coordinate arrays, the attribute-only `crs_grid` record, and the
data array.  Returns the updated store and the variable entry with its
(mutated) attribute dictionary. -/
def processVar (grid : Option Grid) (gm : List (String × AttrVal)) (store : Store)
    (varName : String) (vs : VarSpec) : Except GeoErr (Store × VarSpec) :=
  let a1 := dictSet vs.attributes ("_ARRAY_DIMENSIONS")
    (.strList (vs.dims.map fun d => "/" ++ varName ++ "/" ++ d.name))
  let varAttr :=
    match grid with
    | some _ => dictSet a1 ("grid_mapping") (.str ("/" ++ varName ++ "/crs_grid"))
    | none => a1
  let store := { store with groups := store.groups ++ [varName] }
  match buildDims grid varName vs.dims vs.shape store with
  | .error e => .error e
  | .ok store =>
    let store := storeSetArray store (varName ++ "/crs_grid") ⟨⟨[0], none⟩, gm⟩
    let store := storeSetArray store (varName ++ "/" ++ vs.name)
      ⟨⟨vs.shape, none⟩, varAttr⟩
    .ok (store, { vs with attributes := varAttr })

/-- The `for var in value.keys()` loop of the schema setter. -/
def processVars (grid : Option Grid) (gm : List (String × AttrVal)) :
    Store → List (String × VarSpec) →
      Except GeoErr (Store × List (String × VarSpec))
  | store, [] => .ok (store, [])
  | store, (varName, vs) :: rest =>
    match processVar grid gm store varName vs with
    | .error e => .error e
    | .ok (store, vs') =>
      match processVars grid gm store rest with
      | .error e => .error e
      | .ok (store, rest') => .ok (store, (varName, vs') :: rest')

/-- The `global_attributes` step of the schema setter (`dataset.py` lines
78–80): apply them to the store root and delete the key when present. -/
def schemaSetGA (store : Store) (value : Schema) : Store × Schema :=
  match value.global_attributes with
  | some ga =>
    ({ store with rootAttrs := attrsUpdate store.rootAttrs ga },
     { value with global_attributes := none })
  | none => (store, value)

/-- The grid extraction and variable-processing steps of the schema setter
(`dataset.py` lines 82–156): compute the grid mapping when a grid is
present, delete the `grid` key, and process every variable. -/
def schemaSetGrid (resolveEpsg : Nat → CRSInfo) (resolveWkt : String → CRSInfo)
    (store1 : Store) (value1 : Schema) : Except GeoErr (Store × Schema) :=
  match value1.grid with
  | none =>
    match processVars none [] store1 value1.vars with
    | .error e => .error e
    | .ok (store2, vars') =>
      .ok (store2, { value1 with vars := vars' })
  | some g =>
    match computeGridMapping resolveEpsg resolveWkt g with
    | .error e => .error e
    | .ok gm =>
      match processVars (some g) gm store1
          { value1 with grid := none }.vars with
      | .error e => .error e
      | .ok (store2, vars') =>
        .ok (store2, { value1 with grid := none, vars := vars' })

/-- The `schema` property setter of `GeoZarrDataset` (`dataset.py` lines
37–158), as explicit state passing: takes the open mode, the store and the
caller's schema mapping, and returns the mutated store together with the
caller's schema mapping as the setter leaves it.  In mode `'r'` the guarded
body is skipped entirely and the call returns with no error and no
change. -/
def schemaSet (resolveEpsg : Nat → CRSInfo) (resolveWkt : String → CRSInfo)
    (mode : Mode) (store : Store) (value : Schema) :
    Except GeoErr (Store × Schema) :=
  match mode with
  | .r => .ok (store, value)
  | .x =>
    schemaSetGrid resolveEpsg resolveWkt (schemaSetGA store value).1
      (schemaSetGA store value).2

/-- Projection of a `schemaSet` result to the stored data of the array at
`path`, `none` when the call failed or no such array exists. -/
def dataAt (e : Except GeoErr (Store × Schema)) (path : String) :
    Option NpData :=
  match e with
  | .error _ => none
  | .ok (st, _) => (st.arrays.find? fun p => p.1 = path).map fun p => p.2.data

/-! ## Index resolution and insertion (`dataset.py`, `set_index` /
`insert`) -/

/-- One axis of a resolved selection: an exact integer offset (a selector
matched) or the full axis range (no selector named the axis). -/
inductive Sel where
  | exact (i : Nat)
  | all
  deriving DecidableEq, Repr

/-- Python `list.index(v)`: offset of the first exactly-equal element,
`none` (a `ValueError` in the source) when no element equals `v`. -/
def listIndex (v : ℚ) : List ℚ → Option Nat
  | [] => none
  | x :: xs => if x = v then some 0 else (listIndex v xs).map (· + 1)

/-- `index_keys.index(index)` followed by `indexes[...]`: the first selector
pair whose key equals the axis path `d`. -/
def findPair (d : String) : List (String × ℚ) → Option (String × ℚ)
  | [] => none
  | p :: ps => if p.1 = d then some p else findPair d ps

/-- The selection-building loop of `insert` (`dataset.py` lines 179–187):
for every axis path in the data array's `_ARRAY_DIMENSIONS` order, an exact
offset resolved by first-match lookup of the selector's value in the axis's
materialised coordinate array, or the full range when no selector names the
axis; a selector value absent from the coordinate array is the source's
`ValueError` from `list.index`. -/
def resolveIndexes (dims : List String) (indexes : List (String × ℚ))
    (coords : String → List ℚ) : Except GeoErr (List Sel) :=
  match dims with
  | [] => .ok []
  | d :: rest =>
    match findPair d indexes with
    | none =>
      (resolveIndexes rest indexes coords).map fun s => .all :: s
    | some p =>
      match listIndex p.2 (coords d) with
      | none => .error .indexNotFound
      | some n =>
        (resolveIndexes rest indexes coords).map fun s => .exact n :: s

/-- The state `insert` and `set_index` act on: the materialised coordinate
arrays, the data array's `_ARRAY_DIMENSIONS` attribute, and the (3-D) data
array contents. -/
structure IStore where
  coords : String → List ℚ
  arrayDims : List String
  data : Nat → Nat → Nat → ℚ

/-- `set_index(index_name, values)` (`dataset.py` lines 163–164): overwrite
the named coordinate array in full. -/
def setIndex (s : IStore) (name : String) (values : List ℚ) : IStore :=
  { s with coords := fun n => if n = name then values else s.coords n }

/-- `insert(dataset_name, data, indexes)` (`dataset.py` lines 167–189) for a
3-D data array whose resolved selection has the form
`[exact i, all, all]` — the `exec` of `dataset[name][i][:][:] = data`, under
write-through semantics of the external store.  Selection patterns other
than a single selected leading axis are outside the modelled fragment. -/
def insertSlice (s : IStore) (data2 : Nat → Nat → ℚ)
    (indexes : List (String × ℚ)) : Except GeoErr IStore :=
  match resolveIndexes s.arrayDims indexes s.coords with
  | .error e => .error e
  | .ok [Sel.exact i, Sel.all, Sel.all] =>
    .ok { s with data := fun r c x => if r = i then data2 c x else s.data r c x }
  | .ok _ => .error .unsupportedSelection

/-! ### Concrete sample inputs used by witnesses and counterexamples -/

/-- A geographic (non-projected) CRS as the geodesy service resolves
EPSG:4326: the semi-minor axis is computed from the flattening. -/
def exGeoCRS : CRSInfo where
  is_projected := false
  method_name := ""
  source_params := []
  inverse_flattening := 298257223563 / 1000000000
  prime_meridian_longitude := 0
  semi_major_metre := 6378137
  semi_minor_metre := 63567523142 / 10000
  is_semi_minor_computed := true
  wkt := "GEOGCRS WGS 84"

/-- A CRS whose ellipsoid's semi-minor axis is independently defined (not
computed from the flattening). -/
def crsIndepMinor : CRSInfo :=
  { exGeoCRS with is_semi_minor_computed := false }

/-- A geodesy resolver that answers every identifier with `exGeoCRS`. -/
def exResolveEpsg : Nat → CRSInfo := fun _ => exGeoCRS

/-- A geodesy resolver that answers every WKT string with `exGeoCRS`. -/
def exResolveWkt : String → CRSInfo := fun _ => exGeoCRS

/-- A grid whose CRS specification is a raw (non-`EPSG:`-prefixed) WKT
string. -/
def wktGrid : Grid := ⟨some ("GEOGCRS WGS 84"), (0, 0), 1⟩

/-- A grid with no CRS specification. -/
def noCrsGrid : Grid := ⟨none, (0, 0), 1⟩

/-- A schema with one variable carrying a `COORDINATE_X` and a
`COORDINATE_Y` axis, parametrised by the grid origin, unit size and the two
extents. -/
def xySchema (ox oy u : ℚ) (n m : Nat) : Schema where
  global_attributes := none
  grid := some ⟨none, (ox, oy), u⟩
  vars :=
    [("v",
      { name := "v"
        attributes := []
        shape := [n, m]
        chunks := none
        dtype := "float64"
        dims :=
          [⟨"x", "projection_x_coordinate", "m", "float64", .COORDINATE_X⟩,
           ⟨"y", "projection_y_coordinate", "m", "float64", .COORDINATE_Y⟩] })]

/-- A schema with one variable carrying a `DIMENSION_VALUE` and a
`COORDINATE_Z` axis, parametrised by the grid origin, unit size and the two
extents. -/
def tzSchema (ox oy u : ℚ) (n m : Nat) : Schema where
  global_attributes := none
  grid := some ⟨none, (ox, oy), u⟩
  vars :=
    [("v",
      { name := "v"
        attributes := []
        shape := [n, m]
        chunks := none
        dtype := "float64"
        dims :=
          [⟨"t", "time", "ns", "datetime64", .DIMENSION_VALUE⟩,
           ⟨"z", "height", "m", "float64", .COORDINATE_Z⟩] })]

/-- A small schema with global attributes and a grid but no variables. -/
def wSchema : Schema where
  global_attributes := some [("conventions", .str ("CF-1.11"))]
  grid := some noCrsGrid
  vars := []

/-- The store `schemaSet` produces from `wSchema` on an empty store. -/
def wStoreOut : Store := ⟨[("conventions", .str ("CF-1.11"))], [], []⟩

/-- The residual schema `schemaSet` leaves from `wSchema`. -/
def wSchemaOut : Schema := ⟨none, none, []⟩

/-- Sample coordinate arrays for the index-resolution witnesses: the axis
`"t"` holds `[7, 8]`. -/
def sampleCoords : String → List ℚ := fun nm => if nm = "t" then [7, 8] else []

/-- A 3-D insert-level store with axes `(time, y, x)` and all-zero data. -/
def sampleIStore : IStore where
  coords := fun _ => []
  arrayDims := ["time", "y", "x"]
  data := fun _ _ _ => 0

/-! ### Helper lemmas for the overview loops -/

theorem stride_div (q i : Nat) (hq : 1 ≤ q) :
    (q - 1 + 2 * q * i) / (2 * q) = i := by
  rw [Nat.add_mul_div_left _ _ (by omega : 0 < 2 * q)]
  rw [Nat.div_eq_of_lt (by omega)]
  omega

theorem range'_stride_keys (q : Nat) (hq : 1 ≤ q) :
    ∀ (n j : Nat),
      (List.range' (q - 1 + 2 * q * j) n (2 * q)).map (fun m => m / (2 * q)) =
        List.range' j n 1
  | 0, _ => by simp
  | n + 1, j => by
    rw [List.range'_succ, List.range'_succ, List.map_cons]
    have h1 : (q - 1 + 2 * q * j) + 2 * q = q - 1 + 2 * q * (j + 1) := by ring_nf
    rw [h1, range'_stride_keys q hq n (j + 1), stride_div q j hq]

theorem pyRange_truncated (q h : Nat) (hq : 1 ≤ q) (hr : h % (2 * q) ≤ q - 1) :
    pyRange (q - 1) h (2 * q) = List.range' (q - 1) (h / (2 * q)) (2 * q) := by
  unfold pyRange
  congr 1
  have hdm : 2 * q * (h / (2 * q)) + h % (2 * q) = h := Nat.div_add_mod h (2 * q)
  rcases Nat.eq_zero_or_pos (h / (2 * q)) with h0 | hpos
  · rw [h0]
    rw [h0] at hdm
    simp only [Nat.mul_zero, Nat.zero_add] at hdm
    apply Nat.div_eq_of_lt
    omega
  · have hge : 2 * q ≤ 2 * q * (h / (2 * q)) := by nlinarith
    have hN : h - (q - 1) + 2 * q - 1 =
        2 * q * (h / (2 * q)) + (q + h % (2 * q)) := by
      generalize 2 * q * (h / (2 * q)) = A at hdm hge ⊢
      generalize h % (2 * q) = r at hdm hr ⊢
      omega
    rw [hN, Nat.mul_add_div (by omega : 0 < 2 * q),
      Nat.div_eq_of_lt (by omega : q + h % (2 * q) < 2 * q)]
    omega

theorem overviewCols_spec (image : Nat → Nat → Nat → ℤ)
    (h w bands H W step row : Nat) :
    ∀ (cs : List Nat) (acc : Nat → Nat → Nat → ℤ),
    (∀ col ∈ cs, (row / step < H ∧ col / step < W) ∧
        ∃ av, blockOutput image h w bands row col = .ok av) →
    (cs.map (fun col => col / step)).Nodup →
    ∃ out, overviewCols image h w bands H W step row cs acc = .ok out ∧
      (∀ r c b, (r ≠ row / step ∨ (∀ col ∈ cs, c ≠ col / step) ∨ bands ≤ b) →
        out r c b = acc r c b) ∧
      (∀ col ∈ cs, ∀ b, b < bands → ∀ av,
        blockOutput image h w bands row col = .ok av →
        out (row / step) (col / step) b = av b) := by
  intro cs
  induction cs with
  | nil =>
    intro acc _ _
    exact ⟨acc, rfl, fun _ _ _ _ => rfl, by simp⟩
  | cons col rest ih =>
    intro acc hcs hnd
    obtain ⟨⟨hbnd, av, hav⟩, -⟩ :=
      And.intro (hcs col (by simp)) trivial
    have hnd' : (rest.map (fun c => c / step)).Nodup := (List.nodup_cons.mp hnd).2
    have hne : col / step ∉ rest.map (fun c => c / step) :=
      (List.nodup_cons.mp hnd).1
    obtain ⟨out, hout, hframe, hwrite⟩ :=
      ih (fun r c b =>
            if r = row / step ∧ c = col / step ∧ b < bands then av b
            else acc r c b)
        (fun c hc => hcs c (by simp [hc])) hnd'
    refine ⟨out, ?_, ?_, ?_⟩
    · simp only [overviewCols, hav, if_pos hbnd]
      exact hout
    · intro r c b hcond
      have hcond' : r ≠ row / step ∨ (∀ col' ∈ rest, c ≠ col' / step) ∨ bands ≤ b := by
        rcases hcond with h1 | h2 | h3
        · exact Or.inl h1
        · exact Or.inr (Or.inl fun col' hm => h2 col' (by simp [hm]))
        · exact Or.inr (Or.inr h3)
      rw [hframe r c b hcond', if_neg]
      rcases hcond with h1 | h2 | h3
      · exact fun hc => h1 hc.1
      · exact fun hc => h2 col (by simp) hc.2.1
      · exact fun hc => absurd hc.2.2 (by omega)
    · intro col' hcol' b hb av' hav'
      rcases List.mem_cons.mp hcol' with rfl | hmem
      · have hav2 : av' = av := by
          rw [hav] at hav'
          exact (Except.ok.inj hav').symm
        subst hav2
        have hfr : (row / step : Nat) ≠ row / step ∨
            (∀ c'' ∈ rest, col' / step ≠ c'' / step) ∨ bands ≤ b := by
          refine Or.inr (Or.inl fun c'' hm heq => ?_)
          exact hne (heq ▸ List.mem_map_of_mem (fun c => c / step) hm)
        rw [hframe _ _ _ hfr, if_pos ⟨rfl, rfl, hb⟩]
      · exact hwrite col' hmem b hb av' hav'

theorem overviewRows_spec (image : Nat → Nat → Nat → ℤ)
    (h w bands H W step : Nat) :
    ∀ (rs cols : List Nat) (acc : Nat → Nat → Nat → ℤ),
    (∀ row ∈ rs, ∀ col ∈ cols, (row / step < H ∧ col / step < W) ∧
        ∃ av, blockOutput image h w bands row col = .ok av) →
    (rs.map (fun row => row / step)).Nodup →
    (cols.map (fun col => col / step)).Nodup →
    ∃ out, overviewRows image h w bands H W step rs cols acc = .ok out ∧
      (∀ r c b, ((∀ row ∈ rs, r ≠ row / step) ∨
          (∀ col ∈ cols, c ≠ col / step) ∨ bands ≤ b) →
        out r c b = acc r c b) ∧
      (∀ row ∈ rs, ∀ col ∈ cols, ∀ b, b < bands → ∀ av,
        blockOutput image h w bands row col = .ok av →
        out (row / step) (col / step) b = av b) := by
  intro rs
  induction rs with
  | nil =>
    intro cols acc _ _ _
    exact ⟨acc, rfl, fun _ _ _ _ => rfl, by simp⟩
  | cons row rest ih =>
    intro cols acc hrs hndr hndc
    have hndr' : (rest.map (fun r => r / step)).Nodup := (List.nodup_cons.mp hndr).2
    have hner : row / step ∉ rest.map (fun r => r / step) :=
      (List.nodup_cons.mp hndr).1
    obtain ⟨out1, hout1, hframe1, hwrite1⟩ :=
      overviewCols_spec image h w bands H W step row cols acc
        (hrs row (by simp)) hndc
    obtain ⟨out, hout, hframe, hwrite⟩ :=
      ih cols out1 (fun r hr => hrs r (by simp [hr])) hndr' hndc
    refine ⟨out, ?_, ?_, ?_⟩
    · simp only [overviewRows, hout1]
      exact hout
    · intro r c b hcond
      have hcond' : (∀ row' ∈ rest, r ≠ row' / step) ∨
          (∀ col ∈ cols, c ≠ col / step) ∨ bands ≤ b := by
        rcases hcond with h1 | h2 | h3
        · exact Or.inl fun row' hm => h1 row' (by simp [hm])
        · exact Or.inr (Or.inl h2)
        · exact Or.inr (Or.inr h3)
      rw [hframe r c b hcond']
      rcases hcond with h1 | h2 | h3
      · exact hframe1 r c b (Or.inl (h1 row (by simp)))
      · exact hframe1 r c b (Or.inr (Or.inl h2))
      · exact hframe1 r c b (Or.inr (Or.inr h3))
    · intro row' hrow' col hcol b hb av hav
      rcases List.mem_cons.mp hrow' with rfl | hmem
      · have hfr : (∀ r'' ∈ rest, row' / step ≠ r'' / step) ∨
            (∀ col' ∈ cols, col / step ≠ col' / step) ∨ bands ≤ b := by
          refine Or.inl fun r'' hm heq => ?_
          exact hner (heq ▸ List.mem_map_of_mem (fun r => r / step) hm)
        rw [hframe _ _ _ hfr]
        exact hwrite1 col hcol b hb av hav
      · exact hwrite row' hmem col hcol b hb av hav

/-- Claim C6, as amended.  For every input raster of shape
`(height, width, bands)` and `zoomLevel ≥ 1`, with `step = 2 ^ zoomLevel`
and `start = 2 ^ (zoomLevel - 1) - 1`, *provided each spatial extent's
remainder mod `step` is at most `start` (every visited write then lands in
bounds; divisible extents are the remainder-0 special case) and no visited
block mixes an all-zero band with a positive maximum (always the case for
single-band input)*, `createOverview` returns an array of shape
`(height / step, width / step, bands)` and each output pixel `(r, c)` is
computed solely from the 2×2 input block whose top-left corner is at row
`start + r * step`, column `start + c * step` (`blockOutput` reads only
that block).  When an extent's remainder mod `step` exceeds `start`, the
loop visits a source row or column whose output index is out of bounds and
the run fails instead of returning, so the claim's universal form is
false. -/
theorem createOverview_shape_locality (h w bands zoom : Nat)
    (image : Nat → Nat → Nat → ℤ)
    (hz : 1 ≤ zoom)
    (hdh : h % 2 ^ zoom ≤ 2 ^ (zoom - 1) - 1)
    (hdw : w % 2 ^ zoom ≤ 2 ^ (zoom - 1) - 1)
    (hok : blocksOk image h w bands zoom = true) :
    ∃ out, createOverview h w bands image zoom =
        .ok (out, h / 2 ^ zoom, w / 2 ^ zoom, bands) ∧
      ∀ r c b, r < h / 2 ^ zoom → c < w / 2 ^ zoom → b < bands →
        ∃ av, blockOutput image h w bands
            (2 ^ (zoom - 1) - 1 + r * 2 ^ zoom)
            (2 ^ (zoom - 1) - 1 + c * 2 ^ zoom) = .ok av ∧
          out r c b = av b := by
  have hq : 1 ≤ 2 ^ (zoom - 1) := Nat.one_le_two_pow
  have hstep : 2 ^ zoom = 2 * 2 ^ (zoom - 1) := by
    conv_lhs => rw [show zoom = (zoom - 1) + 1 by omega]
    rw [pow_succ']
  rw [hstep] at hdh hdw ⊢
  simp only [createOverview, blocksOk, hstep] at hok ⊢
  generalize hgen : (2 : Nat) ^ (zoom - 1) = q at *
  rw [pyRange_truncated q h hq hdh, pyRange_truncated q w hq hdw] at hok ⊢
  have hkeysH : (List.range' (q - 1) (h / (2 * q)) (2 * q)).map
      (fun m => m / (2 * q)) = List.range' 0 (h / (2 * q)) 1 := by
    have := range'_stride_keys q hq (h / (2 * q)) 0
    simpa using this
  have hkeysW : (List.range' (q - 1) (w / (2 * q)) (2 * q)).map
      (fun m => m / (2 * q)) = List.range' 0 (w / (2 * q)) 1 := by
    have := range'_stride_keys q hq (w / (2 * q)) 0
    simpa using this
  have hall : ∀ row ∈ List.range' (q - 1) (h / (2 * q)) (2 * q),
      ∀ col ∈ List.range' (q - 1) (w / (2 * q)) (2 * q),
      (row / (2 * q) < h / (2 * q) ∧ col / (2 * q) < w / (2 * q)) ∧
        ∃ av, blockOutput image h w bands row col = .ok av := by
    intro row hrow col hcol
    obtain ⟨i, hi, rfl⟩ := List.mem_range'.mp hrow
    obtain ⟨j, hj, rfl⟩ := List.mem_range'.mp hcol
    rw [List.all_eq_true] at hok
    have h1 := hok _ hrow
    rw [List.all_eq_true] at h1
    have h2 := h1 _ hcol
    constructor
    · rw [stride_div q i hq, stride_div q j hq]
      exact ⟨hi, hj⟩
    · revert h2
      cases hbl : blockOutput image h w bands
          (q - 1 + 2 * q * i) (q - 1 + 2 * q * j) with
      | ok av => exact fun _ => ⟨av, rfl⟩
      | error e => simp
  obtain ⟨out, hout, -, hwrite⟩ :=
    overviewRows_spec image h w bands (h / (2 * q)) (w / (2 * q)) (2 * q)
      (List.range' (q - 1) (h / (2 * q)) (2 * q))
      (List.range' (q - 1) (w / (2 * q)) (2 * q))
      (fun _ _ _ => 0) hall
      (by rw [hkeysH]; exact List.nodup_range' 0 (h / (2 * q)) 1 (by omega))
      (by rw [hkeysW]; exact List.nodup_range' 0 (w / (2 * q)) 1 (by omega))
  refine ⟨out, ?_, ?_⟩
  · rw [hout]
  · intro r c b hr hc hb
    have hrowmem : q - 1 + 2 * q * r ∈
        List.range' (q - 1) (h / (2 * q)) (2 * q) :=
      List.mem_range'.mpr ⟨r, hr, rfl⟩
    have hcolmem : q - 1 + 2 * q * c ∈
        List.range' (q - 1) (w / (2 * q)) (2 * q) :=
      List.mem_range'.mpr ⟨c, hc, rfl⟩
    obtain ⟨-, av, hav⟩ := hall _ hrowmem _ hcolmem
    refine ⟨av, ?_, ?_⟩
    · rw [show q - 1 + r * (2 * q) = q - 1 + 2 * q * r by ring_nf]
      rw [show q - 1 + c * (2 * q) = q - 1 + 2 * q * c by ring_nf]
      exact hav
    · have := hwrite _ hrowmem _ hcolmem b hb av hav
      rw [stride_div q r hq, stride_div q c hq] at this
      exact this

/-- Witness for claim C6's amended theorem, exercising both the aligned and
the truncated case: the 2×2 single-band raster `[[0,5],[0,0]]` at zoom
level 1 (remainders 0), and the all-ones raster of shape `(5, 4, 1)` at
zoom level 2 (height remainder `5 mod 4 = 1 = start`, which succeeds with
the truncated shape `(1, 1, 1)`). -/
theorem createOverview_shape_locality_witness :
    ((1 ≤ 1 ∧ 2 % 2 ^ 1 ≤ 2 ^ (1 - 1) - 1 ∧
        blocksOk overviewSampleA 2 2 1 1 = true) ∧
      (∃ out, createOverview 2 2 1 overviewSampleA 1 =
          .ok (out, 2 / 2 ^ 1, 2 / 2 ^ 1, 1) ∧
        ∀ r c b, r < 2 / 2 ^ 1 → c < 2 / 2 ^ 1 → b < 1 →
          ∃ av, blockOutput overviewSampleA 2 2 1
              (2 ^ (1 - 1) - 1 + r * 2 ^ 1) (2 ^ (1 - 1) - 1 + c * 2 ^ 1) =
              .ok av ∧ out r c b = av b)) ∧
    ((1 ≤ 2 ∧ 5 % 2 ^ 2 ≤ 2 ^ (2 - 1) - 1 ∧ 4 % 2 ^ 2 ≤ 2 ^ (2 - 1) - 1 ∧
        blocksOk (fun _ _ _ => (1 : ℤ)) 5 4 1 2 = true) ∧
      (∃ out, createOverview 5 4 1 (fun _ _ _ => (1 : ℤ)) 2 =
          .ok (out, 5 / 2 ^ 2, 4 / 2 ^ 2, 1) ∧
        ∀ r c b, r < 5 / 2 ^ 2 → c < 4 / 2 ^ 2 → b < 1 →
          ∃ av, blockOutput (fun _ _ _ => (1 : ℤ)) 5 4 1
              (2 ^ (2 - 1) - 1 + r * 2 ^ 2) (2 ^ (2 - 1) - 1 + c * 2 ^ 2) =
              .ok av ∧ out r c b = av b)) :=
  ⟨⟨⟨le_refl 1, by decide, by decide⟩,
      createOverview_shape_locality 2 2 1 1 overviewSampleA (le_refl 1)
        (by decide) (by decide) (by decide)⟩,
    ⟨⟨by decide, by decide, by decide, by decide⟩,
      createOverview_shape_locality 5 4 1 2 (fun _ _ _ => (1 : ℤ))
        (by decide) (by decide) (by decide) (by decide)⟩⟩

/-- Counterexample to claim C6 as stated: for the all-ones raster of shape
`(3, 2, 1)` at zoom level 1, the height remainder `3 mod 2 = 1` exceeds
`start = 2 ^ 0 - 1 = 0`, so the loop's last visited row maps to output
index 1 in an output of extent `3 // 2 = 1`; `create_overview` does not
return an array of shape `(3 // 2, 2 // 2, 1)` — it writes out of bounds of
the output array and fails with numpy's `IndexError`. -/
theorem createOverview_shape_counterexample :
    errOf (createOverview 3 2 1 (fun _ _ _ => (1 : ℤ)) 1) =
        some GeoErr.indexError ∧
      outAt (createOverview 3 2 1 (fun _ _ _ => (1 : ℤ)) 1) 0 0 0 = none := by
  exact ⟨by decide, by decide⟩

/-- Claim C5.  For a single-band 2×2 overview neighbourhood at zoom level 1:
input `[[0,5],[0,0]]` produces output pixel value `5` (only non-zero
samples contribute, with weight 1), an all-zero neighbourhood produces `0`,
and `[[4,6],[2,8]]` produces the rounded mean `5`. -/
theorem overview_zero_handling :
    outAt (createOverview 2 2 1 overviewSampleA 1) 0 0 0 = some 5 ∧
    outAt (createOverview 2 2 1 overviewSampleZero 1) 0 0 0 = some 0 ∧
    outAt (createOverview 2 2 1 overviewSampleB 1) 0 0 0 = some 5 := by
  exact ⟨by decide, by decide, by decide⟩

/-! ### CRS encoding (claims C1 and C2) -/

/-- Claim C1, as amended.  For every CRS specification given as an absent
CRS or an `EPSG:`-prefixed identifier that resolves to a projected CRS or a
geographic CRS whose coordinate-operation method is not Transverse
Mercator, the grid mapping contains `spatial_ref` (the WKT) and no
projection parameters (`false_easting`, `false_northing`, scale or origin
attributes).  The restriction to identifier-style specifications is forced:
a raw-WKT specification is passed to `_transverse_mercator`
unconditionally, so it receives projection parameters whatever its
coordinate-operation method is. -/
theorem encode_non_tm_no_params (rE : Nat → CRSInfo) (rW : String → CRSInfo)
    (g : Grid)
    (hform : g.crs = none ∨
      ∃ s code, g.crs = some s ∧ strStartsWith s ("EPSG:") = true ∧
        strToNat? (strDrop s 5) = some code ∧
        ((rE code).is_projected = false ∨
          strUpper (rE code).method_name ≠ ("TRANSVERSE MERCATOR"))) :
    (∃ wk, lookupGm (computeGridMapping rE rW g) ("spatial_ref") =
        some (.str wk)) ∧
    lookupGm (computeGridMapping rE rW g) ("false_easting") = none ∧
    lookupGm (computeGridMapping rE rW g) ("false_northing") = none ∧
    lookupGm (computeGridMapping rE rW g) ("scale_factor_at_central_meridian") =
      none ∧
    lookupGm (computeGridMapping rE rW g) ("longitude_of_central_meridian") =
      none ∧
    lookupGm (computeGridMapping rE rW g) ("latitude_of_projection_origin") =
      none := by
  rcases hform with hnone | ⟨s, code, hs, hsw, hcode, hnottm⟩
  · have hg : computeGridMapping rE rW g =
        .ok ([("spatial_ref", .str (rE 4326).wkt)] ++
          [("projection_x_coordinate", .num g.upperLeft.1),
           ("projection_y_coordinate", .num g.upperLeft.2)]) := by
      unfold computeGridMapping
      rw [hnone]
    rw [hg]
    refine ⟨⟨(rE 4326).wkt, ?_⟩, ?_, ?_, ?_, ?_, ?_⟩ <;>
      simp [lookupGm, lookupAttr, List.find?]
  · have hcond : ((rE code).is_projected &&
        (strUpper (rE code).method_name == ("TRANSVERSE MERCATOR"))) = false := by
      rcases hnottm with h1 | h2
      · rw [h1]
        rfl
      · have hbeq : (strUpper (rE code).method_name ==
            ("TRANSVERSE MERCATOR")) = false := by
          exact beq_eq_false_iff_ne.mpr h2
        rw [hbeq, Bool.and_false]
    have hg : computeGridMapping rE rW g =
        .ok (([] ++ [("spatial_ref", .str (rE code).wkt)]) ++
          [("projection_x_coordinate", .num g.upperLeft.1),
           ("projection_y_coordinate", .num g.upperLeft.2)]) := by
      unfold computeGridMapping
      rw [hs]
      simp only [hsw, if_true, hcode, hcond, Bool.false_eq_true, if_false]
    rw [hg]
    refine ⟨⟨(rE code).wkt, ?_⟩, ?_, ?_, ?_, ?_, ?_⟩ <;>
      simp [lookupGm, lookupAttr, List.find?]

/-- Witness for claim C1's amended theorem: a grid with no CRS
specification satisfies the hypothesis, and the theorem applies. -/
theorem encode_non_tm_no_params_witness :
    (noCrsGrid.crs = none ∨
      ∃ s code, noCrsGrid.crs = some s ∧ strStartsWith s ("EPSG:") = true ∧
        strToNat? (strDrop s 5) = some code ∧
        ((exResolveEpsg code).is_projected = false ∨
          strUpper (exResolveEpsg code).method_name ≠
            ("TRANSVERSE MERCATOR"))) ∧
    ((∃ wk, lookupGm (computeGridMapping exResolveEpsg exResolveWkt noCrsGrid)
        ("spatial_ref") = some (.str wk)) ∧
      lookupGm (computeGridMapping exResolveEpsg exResolveWkt noCrsGrid)
        ("false_easting") = none ∧
      lookupGm (computeGridMapping exResolveEpsg exResolveWkt noCrsGrid)
        ("false_northing") = none ∧
      lookupGm (computeGridMapping exResolveEpsg exResolveWkt noCrsGrid)
        ("scale_factor_at_central_meridian") = none ∧
      lookupGm (computeGridMapping exResolveEpsg exResolveWkt noCrsGrid)
        ("longitude_of_central_meridian") = none ∧
      lookupGm (computeGridMapping exResolveEpsg exResolveWkt noCrsGrid)
        ("latitude_of_projection_origin") = none) :=
  ⟨Or.inl rfl,
    encode_non_tm_no_params exResolveEpsg exResolveWkt noCrsGrid (Or.inl rfl)⟩

/-- Counterexample to claim C1 as stated: a raw-WKT CRS specification that
resolves to a geographic (non-projected, hence non-Transverse-Mercator)
CRS still receives `false_easting` (and the other projection parameters),
because the WKT branch calls `_transverse_mercator` unconditionally. -/
theorem encode_wkt_counterexample :
    exGeoCRS.is_projected = false ∧
    lookupGm (computeGridMapping exResolveEpsg exResolveWkt wktGrid)
      ("spatial_ref") = some (.str ("GEOGCRS WGS 84")) ∧
    lookupGm (computeGridMapping exResolveEpsg exResolveWkt wktGrid)
      ("false_easting") = some (.num 0) := by
  exact ⟨rfl, rfl, rfl⟩

/-- Claim C2, as amended.  `_transverse_mercator` populates
`semi_major_axis` and `semi_minor_axis` precisely when the ellipsoid's
semi-minor axis *is* computed from the flattening
(`is_semi_minor_computed` true); when it is independently defined the two
attributes are absent.  This is the opposite polarity of the claim. -/
theorem transverseMercator_semi_axes (crs : CRSInfo) :
    lookupAttr (transverseMercator crs) ("semi_major_axis") =
      (if crs.is_semi_minor_computed then some (.num crs.semi_major_metre)
       else none) ∧
    lookupAttr (transverseMercator crs) ("semi_minor_axis") =
      (if crs.is_semi_minor_computed then some (.num crs.semi_minor_metre)
       else none) := by
  cases h : crs.is_semi_minor_computed <;>
    simp [transverseMercator, lookupAttr, h, List.find?]

/-- Counterexample to claim C2 as stated: for a CRS whose semi-minor axis
is independently defined (`is_semi_minor_computed = false`) the attributes
are absent, and for one whose semi-minor axis is computed from the
flattening they are present — the reverse of the claim on both sides. -/
theorem transverseMercator_semi_axes_counterexample :
    crsIndepMinor.is_semi_minor_computed = false ∧
    lookupAttr (transverseMercator crsIndepMinor) ("semi_major_axis") = none ∧
    lookupAttr (transverseMercator crsIndepMinor) ("semi_minor_axis") = none ∧
    exGeoCRS.is_semi_minor_computed = true ∧
    lookupAttr (transverseMercator exGeoCRS) ("semi_major_axis") =
      some (.num exGeoCRS.semi_major_metre) := by
  exact ⟨rfl, rfl, rfl, rfl, rfl⟩

/-! ### Schema building (claims C3, C7, C8 and C10) -/

/-- Claim C3, as amended.  When the store was opened read-only (mode
`'r'`), the schema assignment is a silent no-op: the guarded body is
skipped, no error of any kind is raised (no `ModeError` exists in the
code), and both the store and the caller's schema are left unchanged. -/
theorem schemaSet_readonly_noop (rE : Nat → CRSInfo) (rW : String → CRSInfo)
    (store : Store) (value : Schema) :
    schemaSet rE rW .r store value = .ok (store, value) := rfl

/-- Counterexample to claim C3 as stated: a concrete schema assignment on a
read-only store returns successfully with the store untouched instead of
failing with `ModeError`. -/
theorem schemaSet_readonly_counterexample :
    schemaSet exResolveEpsg exResolveWkt .r emptyStore wSchema =
      .ok (emptyStore, wSchema) := rfl

/-- Helper: whatever `schemaSetGrid` returns on success has no `grid` key
and preserves the absence of `global_attributes`. -/
theorem schemaSetGrid_result (rE : Nat → CRSInfo) (rW : String → CRSInfo)
    (store1 : Store) (value1 : Schema) (st' : Store) (v' : Schema)
    (h : schemaSetGrid rE rW store1 value1 = .ok (st', v')) :
    v'.grid = none ∧ v'.global_attributes = value1.global_attributes := by
  obtain ⟨ga1, gr1, vars1⟩ := value1
  unfold schemaSetGrid at h
  rcases gr1 with _ | g <;> dsimp only at h
  · rcases hpv : processVars none [] store1 vars1 with e | ⟨store2, vars'⟩ <;>
      rw [hpv] at h
    · cases h
    · rw [Except.ok.injEq, Prod.mk.injEq] at h
      rw [← h.2]
      exact ⟨rfl, rfl⟩
  · rcases hcm : computeGridMapping rE rW g with e | gm <;> rw [hcm] at h <;>
      dsimp only at h
    · cases h
    · rcases hpv : processVars (some g) gm store1 vars1 with e | ⟨store2, vars'⟩ <;>
        rw [hpv] at h
      · cases h
      · rw [Except.ok.injEq, Prod.mk.injEq] at h
        rw [← h.2]
        exact ⟨rfl, rfl⟩

/-- Claim C10.  Assigning a schema in create mode consumes the
caller-supplied schema mapping's special keys: on success, the schema as
the setter leaves it contains neither `global_attributes` nor `grid`, so
the caller's mapping can no longer serve as the original schema. -/
theorem schemaSet_deletes_special_keys (rE : Nat → CRSInfo)
    (rW : String → CRSInfo) (store : Store) (value : Schema) (st' : Store)
    (v' : Schema) (h : schemaSet rE rW .x store value = .ok (st', v')) :
    v'.global_attributes = none ∧ v'.grid = none := by
  unfold schemaSet at h
  have hga : (schemaSetGA store value).2.global_attributes = none := by
    rcases hh : value.global_attributes with _ | ga <;>
      simp [schemaSetGA, hh]
  obtain ⟨hgrid, hpres⟩ := schemaSetGrid_result rE rW _ _ _ _ h
  exact ⟨hpres.trans hga, hgrid⟩

/-- Witness for claim C10: a concrete create-mode schema assignment whose
result the theorem applies to. -/
theorem schemaSet_deletes_special_keys_witness :
    schemaSet exResolveEpsg exResolveWkt .x emptyStore wSchema =
      .ok (wStoreOut, wSchemaOut) ∧
    wSchemaOut.global_attributes = none ∧ wSchemaOut.grid = none :=
  ⟨rfl,
    schemaSet_deletes_special_keys exResolveEpsg exResolveWkt emptyStore
      wSchema wStoreOut wSchemaOut rfl⟩

/-- Claim C7, as amended.  When a grid is supplied, a `COORDINATE_X`
coordinate array of extent `n` is stored with the values
`originX + unitSize * i` for `i < n` — but wrapped in an extra leading axis
of length 1 (stored shape `(1, n)`), because the generated 1-D array is
passed to `create_dataset` inside a one-element list; a `COORDINATE_Y` axis
is stored analogously from the Y origin. -/
theorem coordinate_generation (rE : Nat → CRSInfo) (rW : String → CRSInfo)
    (ox oy u : ℚ) (n m : Nat) :
    dataAt (schemaSet rE rW .x emptyStore (xySchema ox oy u n m)) ("v/x") =
      some ⟨[1, n], some ((List.range n).map fun i => ox + u * i)⟩ ∧
    dataAt (schemaSet rE rW .x emptyStore (xySchema ox oy u n m)) ("v/y") =
      some ⟨[1, m], some ((List.range m).map fun i => oy + u * i)⟩ :=
  ⟨rfl, rfl⟩

/-- Counterexample to claim C7 as stated: with
`upperLeft = (100, 200)`, `unitSize = 10` and extent 5, the `COORDINATE_X`
coordinate array is stored with shape `(1, 5)` — the claimed flat extent-5
array `[100, 110, 120, 130, 140]` is not what is stored. -/
theorem coordinate_generation_counterexample :
    dataAt (schemaSet exResolveEpsg exResolveWkt .x emptyStore
        (xySchema 100 200 10 5 5)) ("v/x") =
      some ⟨[1, 5], some [100, 110, 120, 130, 140]⟩ ∧
    dataAt (schemaSet exResolveEpsg exResolveWkt .x emptyStore
        (xySchema 100 200 10 5 5)) ("v/x") ≠
      some ⟨[5], some [100, 110, 120, 130, 140]⟩ := by
  have h : dataAt (schemaSet exResolveEpsg exResolveWkt .x emptyStore
      (xySchema 100 200 10 5 5)) ("v/x") =
      some ⟨[1, 5], some ((List.range 5).map fun i => (100 : ℚ) + 10 * i)⟩ := rfl
  have hl : (List.range 5).map (fun i => (100 : ℚ) + 10 * i) =
      [100, 110, 120, 130, 140] := by
    simp [List.range_succ]
    norm_num
  rw [h, hl]
  exact ⟨rfl, by decide⟩

/-- Claim C8, as amended.  A `DIMENSION_VALUE` coordinate array is left as
an uninitialised placeholder of the declared extent even when a grid is
supplied; but a `COORDINATE_Z` array falls into the same branch as
`COORDINATE_Y` and receives the analytic values
`originY + unitSize * i` (wrapped in a leading unit axis) when a grid is
supplied. -/
theorem dimension_value_z_generation (rE : Nat → CRSInfo)
    (rW : String → CRSInfo) (ox oy u : ℚ) (n m : Nat) :
    dataAt (schemaSet rE rW .x emptyStore (tzSchema ox oy u n m)) ("v/t") =
      some ⟨[n], none⟩ ∧
    dataAt (schemaSet rE rW .x emptyStore (tzSchema ox oy u n m)) ("v/z") =
      some ⟨[1, m], some ((List.range m).map fun i => oy + u * i)⟩ :=
  ⟨rfl, rfl⟩

/-- Counterexample to claim C8 as stated: with a grid
(`upperLeft = (100, 200)`, `unitSize = 10`) and a `COORDINATE_Z` axis of
extent 3, the stored coordinate array holds the analytic Y-origin values
`[200, 210, 220]` instead of remaining an empty placeholder. -/
theorem dimension_value_z_counterexample :
    (dataAt (schemaSet exResolveEpsg exResolveWkt .x emptyStore
        (tzSchema 100 200 10 2 3)) ("v/z")).map NpData.vals =
      some (some [200, 210, 220]) ∧
    (dataAt (schemaSet exResolveEpsg exResolveWkt .x emptyStore
        (tzSchema 100 200 10 2 3)) ("v/z")).map NpData.vals ≠ some none := by
  have h : dataAt (schemaSet exResolveEpsg exResolveWkt .x emptyStore
      (tzSchema 100 200 10 2 3)) ("v/z") =
      some ⟨[1, 3], some ((List.range 3).map fun i => (200 : ℚ) + 10 * i)⟩ := rfl
  have hl : (List.range 3).map (fun i => (200 : ℚ) + 10 * i) =
      [200, 210, 220] := by
    simp [List.range_succ]
    norm_num
  rw [h, hl]
  exact ⟨rfl, by decide⟩

/-! ### Index resolution and insertion (claims C4 and C9) -/

/-- `list.index` characterisation: a returned offset points at an element
equal to the sought value, and no earlier element equals it. -/
theorem listIndex_eq_some (v : ℚ) (l : List ℚ) :
    ∀ n, listIndex v l = some n →
      l[n]? = some v ∧ ∀ m, m < n → l[m]? ≠ some v := by
  induction l with
  | nil =>
    intro n h
    simp [listIndex] at h
  | cons x xs ih =>
    intro n h
    by_cases hx : x = v
    · rw [listIndex, if_pos hx] at h
      injection h with h
      subst h
      subst hx
      exact ⟨by simp, by omega⟩
    · rw [listIndex, if_neg hx] at h
      cases hrec : listIndex v xs with
      | none =>
        rw [hrec] at h
        simp at h
      | some n' =>
        rw [hrec] at h
        simp only [Option.map_some'] at h
        injection h with h
        subst h
        obtain ⟨h1, h2⟩ := ih n' hrec
        constructor
        · simpa using h1
        · intro m hm
          cases m with
          | zero =>
            simp only [List.getElem?_cons_zero]
            intro heq
            injection heq with heq
            exact hx heq
          | succ m' =>
            simp only [List.getElem?_cons_succ]
            exact h2 m' (by omega)

/-- `list.index` returns nothing exactly when the value is absent. -/
theorem listIndex_eq_none (v : ℚ) (l : List ℚ) :
    listIndex v l = none ↔ v ∉ l := by
  induction l with
  | nil => simp [listIndex]
  | cons x xs ih =>
    rw [listIndex]
    by_cases hx : x = v
    · subst hx
      simp
    · simp only [if_neg hx, Option.map_eq_none', ih, List.mem_cons]
      constructor
      · intro hnm hor
        rcases hor with heq | hmem
        · exact hx heq.symm
        · exact hnm hmem
      · intro hno hmem
        exact hno (Or.inr hmem)

/-- Claim C4.  For every insert call, each selector's value is resolved to
the position of the first exactly-equal element of the named axis's
materialised coordinate array; axes without a selector resolve to the full
("write-all") range; and a selector whose value is absent from its
coordinate array makes the resolution fail with the error the spec calls
`IndexNotFoundError` (the `ValueError` that `list.index` raises). -/
theorem resolveIndexes_spec (dims : List String) (indexes : List (String × ℚ))
    (coords : String → List ℚ) :
    (∀ sels, resolveIndexes dims indexes coords = .ok sels →
      sels.length = dims.length ∧
      ∀ (i : Nat) (d : String), dims[i]? = some d →
        (findPair d indexes = none → sels[i]? = some Sel.all) ∧
        (∀ p, findPair d indexes = some p →
          ∃ n, sels[i]? = some (Sel.exact n) ∧ (coords d)[n]? = some p.2 ∧
            ∀ m, m < n → (coords d)[m]? ≠ some p.2)) ∧
    ((∃ d ∈ dims, ∃ p, findPair d indexes = some p ∧ p.2 ∉ coords d) →
      resolveIndexes dims indexes coords = .error .indexNotFound) := by
  induction dims with
  | nil =>
    constructor
    · intro sels h
      rw [resolveIndexes] at h
      injection h with h
      subst h
      refine ⟨rfl, ?_⟩
      intro i d hd
      simp at hd
    · rintro ⟨d, hd, _⟩
      simp at hd
  | cons d0 rest ih =>
    obtain ⟨ihok, iherr⟩ := ih
    constructor
    · intro sels h
      rw [resolveIndexes] at h
      cases hfp : findPair d0 indexes with
      | none =>
        rw [hfp] at h
        dsimp only at h
        cases hrec : resolveIndexes rest indexes coords with
        | error e =>
          rw [hrec] at h
          simp [Except.map] at h
        | ok s' =>
          rw [hrec] at h
          simp only [Except.map] at h
          injection h with h
          subst h
          obtain ⟨hlen, hidx⟩ := ihok s' hrec
          refine ⟨by simp [hlen], ?_⟩
          intro i d hd
          cases i with
          | zero =>
            simp only [List.getElem?_cons_zero] at hd
            injection hd with hd
            subst hd
            constructor
            · intro _
              simp
            · intro p hp
              rw [hfp] at hp
              cases hp
          | succ i' =>
            simp only [List.getElem?_cons_succ] at hd ⊢
            exact hidx i' d hd
      | some p0 =>
        rw [hfp] at h
        dsimp only at h
        cases hli : listIndex p0.2 (coords d0) with
        | none =>
          rw [hli] at h
          cases h
        | some n0 =>
          rw [hli] at h
          dsimp only at h
          cases hrec : resolveIndexes rest indexes coords with
          | error e =>
            rw [hrec] at h
            simp [Except.map] at h
          | ok s' =>
            rw [hrec] at h
            simp only [Except.map] at h
            injection h with h
            subst h
            obtain ⟨hlen, hidx⟩ := ihok s' hrec
            refine ⟨by simp [hlen], ?_⟩
            intro i d hd
            cases i with
            | zero =>
              simp only [List.getElem?_cons_zero] at hd
              injection hd with hd
              subst hd
              constructor
              · intro hnone
                rw [hfp] at hnone
                cases hnone
              · intro p hp
                rw [hfp] at hp
                injection hp with hp
                subst hp
                obtain ⟨h1, h2⟩ := listIndex_eq_some p0.2 (coords d0) n0 hli
                exact ⟨n0, by simp, h1, h2⟩
            | succ i' =>
              simp only [List.getElem?_cons_succ] at hd ⊢
              exact hidx i' d hd
    · rintro ⟨d, hd, p, hfp, hnm⟩
      rcases List.mem_cons.mp hd with rfl | hmem
      · rw [resolveIndexes, hfp]
        dsimp only
        rw [(listIndex_eq_none p.2 (coords d)).mpr hnm]
      · have herr := iherr ⟨d, hmem, p, hfp, hnm⟩
        rw [resolveIndexes]
        cases hfp0 : findPair d0 indexes with
        | none =>
          dsimp only
          rw [herr]
          rfl
        | some p0 =>
          dsimp only
          cases hli : listIndex p0.2 (coords d0) with
          | none => rfl
          | some n0 =>
            dsimp only
            rw [herr]
            rfl

/-- Witness for claim C4: on the axis order `["t", "y"]` with coordinate
array `[7, 8]` for `"t"`, the selector `("t", 8)` resolves to offset 1 by
first exact match with `"y"` getting the full range, and a selector value
`99` absent from the coordinate array makes resolution fail. -/
theorem resolveIndexes_spec_witness :
    (∃ n, ([Sel.exact 1, Sel.all] : List Sel)[0]? = some (Sel.exact n) ∧
      (sampleCoords ("t"))[n]? = some 8 ∧
      ∀ m, m < n → (sampleCoords ("t"))[m]? ≠ some 8) ∧
    resolveIndexes ["t"] [("t", 99)] sampleCoords = .error .indexNotFound :=
  ⟨(((resolveIndexes_spec ["t", "y"] [("t", 8)] sampleCoords).1
      [Sel.exact 1, Sel.all] rfl).2 0 ("t") rfl).2 ("t", 8) rfl,
    (resolveIndexes_spec ["t"] [("t", 99)] sampleCoords).2
      ⟨"t", by decide, ("t", 99), rfl, by decide⟩⟩

/-- Claim C9.  For a 3-D variable with axes `(time, y, x)` whose time
coordinate array has been populated via `set_index`, inserting a single
time-slice with the one selector `(timePath, value)` writes the slice data
exactly into the plane at the resolved time offset, and every element of
every other time plane is unchanged. -/
theorem insert_time_slice_frame (s : IStore) (tp yp xp : String)
    (vals : List ℚ) (v : ℚ) (i : Nat) (data2 : Nat → Nat → ℚ)
    (hdims : s.arrayDims = [tp, yp, xp]) (hy : yp ≠ tp) (hx : xp ≠ tp)
    (hfind : listIndex v vals = some i) :
    ∃ s', insertSlice (setIndex s tp vals) data2 [(tp, v)] = .ok s' ∧
      (∀ c x, s'.data i c x = data2 c x) ∧
      (∀ r, r ≠ i → ∀ c x, s'.data r c x = s.data r c x) := by
  have htp : findPair tp [(tp, v)] = some (tp, v) := by
    simp [findPair]
  have hyp : findPair yp [(tp, v)] = none := by
    simp only [findPair]
    rw [if_neg fun hh => hy hh.symm]
  have hxp : findPair xp [(tp, v)] = none := by
    simp only [findPair]
    rw [if_neg fun hh => hx hh.symm]
  have h2 : resolveIndexes [xp] [(tp, v)]
      (fun n => if n = tp then vals else s.coords n) = .ok [Sel.all] := by
    rw [resolveIndexes, hxp]
    rfl
  have h1 : resolveIndexes [yp, xp] [(tp, v)]
      (fun n => if n = tp then vals else s.coords n) =
      .ok [Sel.all, Sel.all] := by
    rw [resolveIndexes, hyp]
    dsimp only
    rw [h2]
    rfl
  have hres : resolveIndexes [tp, yp, xp] [(tp, v)]
      (fun n => if n = tp then vals else s.coords n) =
      .ok [Sel.exact i, Sel.all, Sel.all] := by
    rw [resolveIndexes, htp]
    dsimp only
    rw [if_pos rfl, hfind]
    dsimp only
    rw [h1]
    rfl
  refine ⟨{ setIndex s tp vals with
      data := fun r c x => if r = i then data2 c x else s.data r c x },
    ?_, ?_, ?_⟩
  · show (match resolveIndexes s.arrayDims [(tp, v)]
        (fun n => if n = tp then vals else s.coords n) with
      | Except.error e => (Except.error e : Except GeoErr IStore)
      | Except.ok [Sel.exact i, Sel.all, Sel.all] =>
        Except.ok { setIndex s tp vals with
          data := fun r c x => if r = i then data2 c x else
            (setIndex s tp vals).data r c x }
      | Except.ok _ => Except.error GeoErr.unsupportedSelection) = _
    rw [hdims, hres]
    rfl
  · intro c x
    simp
  · intro r hr c x
    simp [if_neg hr]

/-- Witness for claim C9: a concrete 3-D store with axes
`("time", "y", "x")`, time coordinates `[7, 8]` set via `setIndex`, and a
slice inserted at time value `8` (offset 1). -/
theorem insert_time_slice_frame_witness :
    (sampleIStore.arrayDims = ["time", "y", "x"] ∧
      ("y" : String) ≠ "time" ∧ ("x" : String) ≠ "time" ∧
      listIndex 8 [7, 8] = some 1) ∧
    (∃ s', insertSlice (setIndex sampleIStore ("time") [7, 8])
        (fun _ _ => 1) [("time", 8)] = .ok s' ∧
      (∀ c x, s'.data 1 c x = 1) ∧
      (∀ r, r ≠ 1 → ∀ c x, s'.data r c x = sampleIStore.data r c x)) :=
  ⟨⟨rfl, by decide, by decide, rfl⟩,
    insert_time_slice_frame sampleIStore ("time") ("y") ("x") [7, 8] 8 1
      (fun _ _ => 1) rfl (by decide) (by decide) rfl⟩

end GeoZarr
